import Mathlib

/-!
Shallow embedding of the Si4703 FM receiver driver
(`src/si4703/Si4703.h`, `src/si4703/Si4703.cpp`).

The driver keeps a 16-word shadow of the chip's register file, read in the
chip's native bulk-read order (registers 0x0A..0x0F followed by 0x00..0x09),
mutates named bitfields of the shadow in memory, and writes back only the six
control words (device registers 0x02..0x07, shadow indices 8..13).

Machine integers are modelled as `Nat` (register words, bit fields) and `Int`
(the C `int` arguments and results); bitfield access is explicit
divide/modulo arithmetic on words.
-/

namespace Si4703

/-- Extract the bitfield of width `wd` starting at bit `lo` of word `w`
(C bitfield read `w.bits.FIELD`). -/
def getField (w lo wd : Nat) : Nat := w / 2 ^ lo % 2 ^ wd

/-- Overwrite the bitfield of width `wd` starting at bit `lo` of word `w`
with `v` (C bitfield assignment `w.bits.FIELD = v`; the stored value is
`v` reduced modulo `2 ^ wd`, as for a C unsigned bitfield). -/
def setField (w lo wd v : Nat) : Nat :=
  w % 2 ^ lo + 2 ^ lo * (v % 2 ^ wd) + 2 ^ (lo + wd) * (w / 2 ^ (lo + wd))

theorem getField_setField_self (w lo wd v : Nat) :
    getField (setField w lo wd v) lo wd = v % 2 ^ wd := by
  unfold getField setField
  have hP : 0 < 2 ^ lo := Nat.two_pow_pos lo
  have hQ : 0 < 2 ^ wd := Nat.two_pow_pos wd
  have h1 : w % 2 ^ lo + 2 ^ lo * (v % 2 ^ wd) + 2 ^ (lo + wd) * (w / 2 ^ (lo + wd))
      = w % 2 ^ lo + (v % 2 ^ wd + 2 ^ wd * (w / 2 ^ (lo + wd))) * 2 ^ lo := by
    rw [Nat.pow_add]; ring
  rw [h1, Nat.add_mul_div_right _ _ hP, Nat.div_eq_of_lt (Nat.mod_lt w hP),
    Nat.zero_add, Nat.add_mul_mod_self_left, Nat.mod_eq_of_lt (Nat.mod_lt v hQ)]

theorem setField_lowpart_lt (w lo wd v : Nat) :
    w % 2 ^ lo + 2 ^ lo * (v % 2 ^ wd) < 2 ^ (lo + wd) := by
  have h1 : w % 2 ^ lo < 2 ^ lo := Nat.mod_lt w (Nat.two_pow_pos lo)
  have h2 : v % 2 ^ wd < 2 ^ wd := Nat.mod_lt v (Nat.two_pow_pos wd)
  calc w % 2 ^ lo + 2 ^ lo * (v % 2 ^ wd)
      < 2 ^ lo + 2 ^ lo * (v % 2 ^ wd) := by omega
    _ = 2 ^ lo * (1 + v % 2 ^ wd) := by ring
    _ ≤ 2 ^ lo * 2 ^ wd := Nat.mul_le_mul_left _ (by omega)
    _ = 2 ^ (lo + wd) := (Nat.pow_add 2 lo wd).symm

theorem getField_setField_high (w lo wd v lo' wd' : Nat) (h : lo + wd ≤ lo') :
    getField (setField w lo wd v) lo' wd' = getField w lo' wd' := by
  have hsplit : (2:Nat) ^ lo' = 2 ^ (lo + wd) * 2 ^ (lo' - (lo + wd)) := by
    rw [← Nat.pow_add]; congr 1; omega
  have hdiv : setField w lo wd v / 2 ^ (lo + wd) = w / 2 ^ (lo + wd) := by
    unfold setField
    rw [Nat.add_mul_div_left _ _ (Nat.two_pow_pos (lo + wd)),
      Nat.div_eq_of_lt (setField_lowpart_lt w lo wd v), Nat.zero_add]
  unfold getField
  rw [hsplit, ← Nat.div_div_eq_div_mul, ← Nat.div_div_eq_div_mul, hdiv]

theorem getField_setField_low (w lo wd v lo' wd' : Nat) (h : lo' + wd' ≤ lo) :
    getField (setField w lo wd v) lo' wd' = getField w lo' wd' := by
  have hdvd : (2:Nat) ^ (lo' + wd') ∣ 2 ^ lo := Nat.pow_dvd_pow 2 h
  have key : setField w lo wd v % 2 ^ (lo' + wd') = w % 2 ^ (lo' + wd') := by
    unfold setField
    obtain ⟨t, ht⟩ := hdvd
    have h1 : w % 2 ^ lo + 2 ^ lo * (v % 2 ^ wd) + 2 ^ (lo + wd) * (w / 2 ^ (lo + wd))
        = w % 2 ^ lo + 2 ^ (lo' + wd') *
            (t * (v % 2 ^ wd) + t * 2 ^ wd * (w / 2 ^ (lo + wd))) := by
      rw [Nat.pow_add 2 lo wd, ht]; ring
    rw [h1, Nat.add_mul_mod_self_left,
      Nat.mod_mod_of_dvd w (Nat.pow_dvd_pow 2 h)]
  unfold getField
  rw [← Nat.mod_mul_right_div_self, ← Nat.mod_mul_right_div_self w, ← Nat.pow_add, key]

/-! ## Byte-level register bank I/O (`getShadow`, `putShadow`) -/

theorem two_pow_eight_mul_add_lor (hi lo : Nat) (h : lo < 256) :
    (hi <<< 8) ||| lo = 256 * hi + lo := by
  apply Nat.eq_of_testBit_eq
  intro i
  rw [Nat.testBit_lor, Nat.testBit_shiftLeft]
  rcases Nat.lt_or_ge i 8 with hc | hc
  · have h8 : ¬ (8 ≤ i) := by omega
    simp only [h8, decide_False, Bool.false_and, Bool.false_or]
    have hmod : (256 * hi + lo) % 2 ^ 8 = lo := by
      have h256 : (2:Nat) ^ 8 = 256 := by norm_num
      rw [h256]; omega
    conv_lhs => rw [← hmod, Nat.testBit_mod_two_pow]
    simp [hc]
  · have hloF : Nat.testBit lo i = false := by
      apply Nat.testBit_lt_two_pow
      calc lo < 256 := h
        _ = 2 ^ 8 := by norm_num
        _ ≤ 2 ^ i := Nat.pow_le_pow_right (by omega) hc
    rw [hloF]
    simp only [hc, decide_True, Bool.true_and, Bool.or_false]
    rw [Nat.testBit_to_div_mod, Nat.testBit_to_div_mod]
    have hX : (256 * hi + lo) / 2 ^ i = hi / 2 ^ (i - 8) := by
      have hsplit : (2:Nat) ^ i = 2 ^ 8 * 2 ^ (i - 8) := by
        rw [← Nat.pow_add]; congr 1; omega
      rw [hsplit, ← Nat.div_div_eq_div_mul]
      congr 1
      have h256 : (2:Nat) ^ 8 = 256 := by norm_num
      rw [h256]; omega
    rw [hX]

/-- Reassembling a 16-bit word from its transmitted high and low bytes
recovers the word. -/
theorem word_reassemble (w : Nat) :
    ((w >>> 8) <<< 8) ||| (w &&& 255) = w := by
  have hand : w &&& 255 = w % 256 := by
    have h255 : (255:Nat) = 2 ^ 8 - 1 := by norm_num
    rw [h255, Nat.and_pow_two_sub_one_eq_mod]
  have hlt : w % 256 < 256 := Nat.mod_lt w (by omega)
  rw [hand, two_pow_eight_mul_add_lor _ _ hlt, Nat.shiftRight_eq_div_pow]
  have h256 : (2:Nat) ^ 8 = 256 := by norm_num
  rw [h256]
  omega

/-- Device bulk-read order (`Si4703.cpp` lines 61-63): the chip returns
registers 0x0A..0x0F first, then 0x00..0x09; `readOrder[i]` is the device
register number whose word arrives in position `i`. -/
def readOrder : List Nat := [10, 11, 12, 13, 14, 15, 0, 1, 2, 3, 4, 5, 6, 7, 8, 9]

/-- Shadow index to device register number, per the `shadow_t` union layout
of `Si4703.h` lines 365-387 (index 0 = STATUSRSSI 0x0A, index 1 = READCHAN
0x0B, indices 2-5 = RDSA..RDSD, index 6 = DEVICEID 0x00, index 7 = CHIPID
0x01, indices 8-13 = POWERCFG 0x02 .. TEST1 0x07, 14 = TEST2, 15 = BOOTCONFIG). -/
def shadowReg (i : Nat) : Nat := if i < 6 then 10 + i else i - 6

/-- Device register number to shadow index (inverse of `shadowReg`). -/
def regShadowIdx (r : Nat) : Nat := if r < 10 then r + 6 else r - 10

/-- Byte stream a device with register file `regs` returns for the 32-byte
bulk read: each register word, high byte first, in the native read order. -/
def deviceReadBytes (regs : Nat → Nat) : List Nat :=
  readOrder.flatMap (fun r => [regs r >>> 8, regs r &&& 255])

/-- `Si4703::getShadow` (Si4703.cpp lines 65-71): loop iteration `i`
consumes bytes `2*i` and `2*i+1` of the bus response and stores
`(hi << 8) | lo` into `shadow.word[i]`. -/
def getShadow (bytes : List Nat) (i : Nat) : Nat :=
  (bytes.getD (2 * i) 0 <<< 8) ||| bytes.getD (2 * i + 1) 0

/-- `Si4703::putShadow` (Si4703.cpp lines 77-85): transmits `shadow.word[i]`
for `i = 8..13`, each word as high byte then low byte. -/
def putShadow (s : Nat → Nat) : List Nat :=
  (List.range 6).flatMap (fun k => [s (8 + k) >>> 8, s (8 + k) &&& 255])

/-- C3: every call to `putShadow` transmits exactly 6 sixteen-bit words
(12 bytes) — the control registers 0x02 through 0x07, in ascending
register-number order, each as a big-endian byte pair — never more and never
fewer, whatever the shadow holds. -/
theorem putShadow_scope (s : Nat → Nat) :
    (putShadow s).length = 12 ∧
    putShadow s =
      [2, 3, 4, 5, 6, 7].flatMap
        (fun r => [s (regShadowIdx r) >>> 8, s (regShadowIdx r) &&& 255]) := by
  exact ⟨rfl, rfl⟩

/-- C4: `getShadow` on the 32-byte block read stores 16 big-endian words so
that shadow indices 0-5 receive device registers 0x0A-0x0F and indices 6-15
receive device registers 0x00-0x09, for every register file the bus returns. -/
theorem getShadow_readOrder (regs : Nat → Nat) :
    (deviceReadBytes regs).length = 32 ∧
    ∀ i, i < 16 → getShadow (deviceReadBytes regs) i = regs (shadowReg i) := by
  refine ⟨rfl, ?_⟩
  intro i hi
  interval_cases i <;> exact word_reassemble _

/-- Register-bank layout asserted by claim C2: after a full refresh, indices
2-7 of the shadow would hold the six writable control registers 0x02-0x07 and
the write-back would transmit the words at indices 2-7. -/
def c2ClaimLayout : Prop :=
  ∀ regs : Nat → Nat,
    (∀ k, k < 6 → getShadow (deviceReadBytes regs) (2 + k) = regs (2 + k)) ∧
    putShadow (fun i => getShadow (deviceReadBytes regs) i) =
      (List.range 6).flatMap (fun k =>
        [getShadow (deviceReadBytes regs) (2 + k) >>> 8,
         getShadow (deviceReadBytes regs) (2 + k) &&& 255])

/-- C2 counterexample: with the register file `regs r = r`, shadow index 2
holds register 0x0C (RDSA, value 12), not the power-config register 0x02, so
the layout asserted by the claim fails. -/
theorem c2_layout_false : ¬ c2ClaimLayout := by
  intro hcl
  have h2 := (hcl (fun r => r)).1 0 (by omega)
  exact absurd h2 (by decide)

/-- C2 amended: after a full-bank refresh index 0 holds status/RSSI (0x0A),
index 1 the read-channel readback (0x0B), indices 2-5 the RDS blocks
(0x0C-0x0F), indices 6-7 the read-only device-ID and chip-ID (0x00-0x01),
indices 8-13 the six writable control registers (0x02-0x07), and indices
14-15 the reserved TEST2/BOOTCONFIG words; the write-back transmits the six
words at indices 8-13, i.e. registers 0x02-0x07. -/
theorem shadow_layout_invariant (regs : Nat → Nat) :
    getShadow (deviceReadBytes regs) 0 = regs 10 ∧
    getShadow (deviceReadBytes regs) 1 = regs 11 ∧
    (∀ k, k < 4 → getShadow (deviceReadBytes regs) (2 + k) = regs (12 + k)) ∧
    getShadow (deviceReadBytes regs) 6 = regs 0 ∧
    getShadow (deviceReadBytes regs) 7 = regs 1 ∧
    (∀ k, k < 6 → getShadow (deviceReadBytes regs) (8 + k) = regs (2 + k)) ∧
    getShadow (deviceReadBytes regs) 14 = regs 8 ∧
    getShadow (deviceReadBytes regs) 15 = regs 9 ∧
    putShadow (fun i => getShadow (deviceReadBytes regs) i) =
      (List.range 6).flatMap (fun k => [regs (2 + k) >>> 8, regs (2 + k) &&& 255]) := by
  refine ⟨word_reassemble _, word_reassemble _, ?_, word_reassemble _,
    word_reassemble _, ?_, word_reassemble _, word_reassemble _, ?_⟩
  · intro k hk
    interval_cases k <;> exact word_reassemble _
  · intro k hk
    interval_cases k <;> exact word_reassemble _
  · have e8 : getShadow (deviceReadBytes regs) 8 = regs 2 := word_reassemble _
    have e9 : getShadow (deviceReadBytes regs) 9 = regs 3 := word_reassemble _
    have e10 : getShadow (deviceReadBytes regs) 10 = regs 4 := word_reassemble _
    have e11 : getShadow (deviceReadBytes regs) 11 = regs 5 := word_reassemble _
    have e12 : getShadow (deviceReadBytes regs) 12 = regs 6 := word_reassemble _
    have e13 : getShadow (deviceReadBytes regs) 13 = regs 7 := word_reassemble _
    show [getShadow (deviceReadBytes regs) 8 >>> 8, getShadow (deviceReadBytes regs) 8 &&& 255,
      getShadow (deviceReadBytes regs) 9 >>> 8, getShadow (deviceReadBytes regs) 9 &&& 255,
      getShadow (deviceReadBytes regs) 10 >>> 8, getShadow (deviceReadBytes regs) 10 &&& 255,
      getShadow (deviceReadBytes regs) 11 >>> 8, getShadow (deviceReadBytes regs) 11 &&& 255,
      getShadow (deviceReadBytes regs) 12 >>> 8, getShadow (deviceReadBytes regs) 12 &&& 255,
      getShadow (deviceReadBytes regs) 13 >>> 8, getShadow (deviceReadBytes regs) 13 &&& 255] = _
    rw [e8, e9, e10, e11, e12, e13]
    rfl

/-! ## Word-level driver state model

The device register file is a function from register number to 16-bit word.
A full shadow refresh is viewed at word level (`shadowOfD`); the byte-exact
assembly of those words is established in `shadowOfD_eq_getShadow`. -/

abbrev Regs := Nat → Nat

/-- Word-level view of a full shadow refresh from device register file `d`. -/
def shadowOfD (d : Regs) : Nat → Nat := fun i => d (shadowReg i)

theorem shadowOfD_eq_getShadow (d : Regs) (i : Nat) (h : i < 16) :
    shadowOfD d i = getShadow (deviceReadBytes d) i := by
  unfold shadowOfD
  interval_cases i <;> exact (word_reassemble _).symm

/-- Point update of one word of the shadow (a bitfield assignment rewrites
only the word holding that field). -/
def updWord (s : Nat → Nat) (i v : Nat) : Nat → Nat := fun j => if j = i then v else s j

/-- Words transmitted by a write-back, in the order `putShadow` sends them
(shadow indices 8..13 = device registers 0x02..0x07). -/
def ctrlWords (s : Nat → Nat) : List Nat := [s 8, s 9, s 10, s 11, s 12, s 13]

/-- Modelled from the claims' assumed device: a control write stores the six
transmitted words into device registers 0x02-0x07 and the device echoes the
written channel field (CHAN, bits 0-9 of register 0x03) back in the
read-channel register's READCHAN field (bits 0-9 of register 0x0B); all other
registers are untouched. -/
def echoWrite (d : Regs) (s : Nat → Nat) : Regs := fun r =>
  if r = 11 then setField (d 11) 0 10 (getField (s 9) 0 10)
  else if 2 ≤ r ∧ r ≤ 7 then s (regShadowIdx r)
  else d r

theorem updWord_self (s : Nat → Nat) (i v : Nat) : updWord s i v i = v := by
  unfold updWord; rw [if_pos rfl]

theorem updWord_other (s : Nat → Nat) (i v j : Nat) (h : j ≠ i) :
    updWord s i v j = s j := by
  unfold updWord; rw [if_neg h]

theorem echoWrite_ctrl (d : Regs) (s : Nat → Nat) (r : Nat) (h1 : 2 ≤ r) (h2 : r ≤ 7) :
    echoWrite d s r = s (r + 6) := by
  unfold echoWrite regShadowIdx
  rw [if_neg (by omega), if_pos ⟨h1, h2⟩, if_pos (by omega)]

theorem echoWrite_rdchan (d : Regs) (s : Nat → Nat) :
    echoWrite d s 11 = setField (d 11) 0 10 (getField (s 9) 0 10) := by
  unfold echoWrite
  rw [if_pos rfl]

/-! ## Volume (`Si4703.cpp` lines 318-345) -/

/-- `Si4703::getVolume`: refresh the shadow, return the 4-bit VOLUME field
of SYSCONFIG2 (shadow index 11, device register 0x05). -/
def getVolume (d : Regs) : Int := (getField (shadowOfD d 11) 0 4 : Int)

/-- `Si4703::setVolume`: refresh, clamp the argument to [0, 15], store it in
the VOLUME field, write back, and return `getVolume()` re-read from the
device. The clamped value is non-negative, so `Int.toNat` is the exact C
conversion into the unsigned bitfield. -/
def setVolume (d : Regs) (volume : Int) : Regs × Int :=
  let s := shadowOfD d
  let v1 := if volume < 0 then 0 else volume
  let v2 := if v1 > 15 then 15 else v1
  let s1 := updWord s 11 (setField (s 11) 0 4 v2.toNat)
  let d1 := echoWrite d s1
  (d1, getVolume d1)

/-- `Si4703::incVolume`. -/
def incVolume (d : Regs) : Regs × Int := setVolume d (getVolume d + 1)

/-- `Si4703::decVolume`. -/
def decVolume (d : Regs) : Regs × Int := setVolume d (getVolume d - 1)

theorem setVolume_eval (d : Regs) (v : Int) :
    (setVolume d v).2 = max 0 (min 15 v) ∧
    getField ((setVolume d v).1 5) 0 4 = (max 0 (min 15 v)).toNat := by
  have hctrl : (setVolume d v).1 5 =
      setField (shadowOfD d 11) 0 4 (if (if v < 0 then 0 else v) > 15 then 15
        else if v < 0 then 0 else v).toNat := rfl
  have hfield : getField ((setVolume d v).1 5) 0 4 =
      (if (if v < 0 then 0 else v) > 15 then 15 else if v < 0 then 0 else v).toNat := by
    rw [hctrl, getField_setField_self]
    apply Nat.mod_eq_of_lt
    split_ifs <;> omega
  constructor
  · show getVolume (echoWrite d _) = _
    unfold getVolume
    have : shadowOfD (setVolume d v).1 11 = (setVolume d v).1 5 := rfl
    show (getField (shadowOfD (setVolume d v).1 11) 0 4 : Int) = _
    rw [this, hfield]
    split_ifs <;> omega
  · rw [hfield]
    congr 1
    split_ifs <;> omega

/-- C7: `setVolume(v)` stores `max(0, min(15, v))` into the 4-bit volume
field and returns that stored value under the echo-device model;
`incVolume` at 15 stays 15 and `decVolume` at 0 stays 0. -/
theorem setVolume_clamps (d : Regs) (v : Int) :
    (setVolume d v).2 = max 0 (min 15 v) ∧
    getField ((setVolume d v).1 5) 0 4 = (max 0 (min 15 v)).toNat ∧
    (setVolume d (-5)).2 = 0 ∧
    (setVolume d 99).2 = 15 ∧
    (getVolume d = 15 → (incVolume d).2 = 15) ∧
    (getVolume d = 0 → (decVolume d).2 = 0) := by
  refine ⟨(setVolume_eval d v).1, (setVolume_eval d v).2, ?_, ?_, ?_, ?_⟩
  · rw [(setVolume_eval d (-5)).1]; rfl
  · rw [(setVolume_eval d 99).1]; rfl
  · intro h15
    unfold incVolume
    rw [h15, (setVolume_eval d (15 + 1)).1]; decide
  · intro h0
    unfold decVolume
    rw [h0, (setVolume_eval d (0 - 1)).1]; decide

/-! ## Mute (`Si4703.cpp` lines 286-297) -/

/-- `Si4703::setMute`: refresh, write `en` directly into the DMUTE bit
(bit 14 of POWERCFG, shadow index 8, device register 0x02), write back. -/
def setMute (d : Regs) (en : Bool) : Regs :=
  let s := shadowOfD d
  let s1 := updWord s 8 (setField (s 8) 14 1 (if en then 1 else 0))
  echoWrite d s1

/-- `Si4703::getMute`: refresh, return the DMUTE bit as a boolean. -/
def getMute (d : Regs) : Bool := getField (shadowOfD d 8) 14 1 != 0

/-- C8: `setMute(en)` writes `en` verbatim into the chip's DMUTE (unmute)
bit — `setMute true` asserts the unmute bit — and `getMute` returns the
DMUTE bit as read back, so the inverted polarity is preserved, not
corrected. -/
theorem setMute_polarity (d : Regs) (en : Bool) :
    getField (setMute d en 2) 14 1 = (if en then 1 else 0) ∧
    getMute (setMute d en) = en := by
  have hword : setMute d en 2 = setField (shadowOfD d 8) 14 1 (if en then 1 else 0) := by
    show echoWrite d _ 2 = _
    rw [echoWrite_ctrl _ _ 2 (by omega) (by omega), updWord_self]
  have hbit : getField (setMute d en 2) 14 1 = (if en then 1 else 0) := by
    rw [hword, getField_setField_self]
    cases en <;> rfl
  refine ⟨hbit, ?_⟩
  unfold getMute
  have : shadowOfD (setMute d en) 8 = setMute d en 2 := rfl
  rw [this, hbit]
  cases en <;> rfl

/-! ## Band region table (`Si4703.cpp` lines 222-264, 521-534) -/

/-- Band configuration held in the driver's private fields `_bandStart`,
`_bandEnd`, `_bandSpacing` (frequencies in 10 kHz units). -/
structure BandCfg where
  bandStart : Int
  bandEnd : Int
  spacing : Int

/-- `Si4703::setRegion`: two switches over the band and spacing selectors;
an unrecognized selector falls into `default: break` and leaves the
corresponding fields unchanged (`de` is ignored entirely). -/
def setRegion (c : BandCfg) (band space : Int) : BandCfg :=
  let c1 :=
    if band = 0 then { c with bandStart := 8750, bandEnd := 10800 }
    else if band = 1 then { c with bandStart := 7600, bandEnd := 10800 }
    else if band = 2 then { c with bandStart := 7600, bandEnd := 9000 }
    else c
  if space = 1 then { c1 with spacing := 10 }
  else if space = 0 then { c1 with spacing := 20 }
  else if space = 2 then { c1 with spacing := 5 }
  else c1

/-- `Si4703::getBandStart`. -/
def getBandStart (c : BandCfg) : Int := c.bandStart

/-- `Si4703::getBandEnd`. -/
def getBandEnd (c : BandCfg) : Int := c.bandEnd

/-- `Si4703::getBandSpace`. -/
def getBandSpace (c : BandCfg) : Int := c.spacing

/-- C9: `setRegion` silently ignores unrecognized selectors — an invalid
band selector leaves `bandStart`/`bandEnd` unchanged and an invalid spacing
selector leaves the spacing unchanged, so the getters afterwards return
whatever the fields held before. -/
theorem setRegion_ignores_invalid (c : BandCfg) (band space : Int) :
    (band ≠ 0 → band ≠ 1 → band ≠ 2 →
      getBandStart (setRegion c band space) = c.bandStart ∧
      getBandEnd (setRegion c band space) = c.bandEnd) ∧
    (space ≠ 0 → space ≠ 1 → space ≠ 2 →
      getBandSpace (setRegion c band space) = c.spacing) := by
  unfold setRegion getBandStart getBandEnd getBandSpace
  constructor
  · intro h0 h1 h2
    rw [if_neg h0, if_neg h1, if_neg h2]
    split_ifs <;> exact ⟨rfl, rfl⟩
  · intro h0 h1 h2
    rw [if_neg h1, if_neg h0, if_neg h2]
    split_ifs <;> rfl

/-! ## GPIO write (`Si4703.cpp` lines 470-483) -/

/-- `Si4703::writeGPIO` (the Lean name avoids the upper-case suffix): refresh the shadow, switch on the pin selector —
pins 1, 2, 3 set the corresponding 2-bit field of SYSCONFIG1 (shadow index
10, device register 0x04), any other selector falls through `default: break`
— then write back. The result carries the updated device together with the
six transmitted control words. The C `int` value lands in a 2-bit unsigned
field, hence the `emod 4` conversion. -/
def writeGpio (d : Regs) (gpio val : Int) : Regs × List Nat :=
  let s := shadowOfD d
  let s1 :=
    if gpio = 1 then updWord s 10 (setField (s 10) 0 2 (val % 4).toNat)
    else if gpio = 2 then updWord s 10 (setField (s 10) 2 2 (val % 4).toNat)
    else if gpio = 3 then updWord s 10 (setField (s 10) 4 2 (val % 4).toNat)
    else s
  (echoWrite d s1, ctrlWords s1)

/-- Bit offset of the 2-bit GPIO field of SYSCONFIG1 selected by pin `1`,
`2` or `3` (`Si4703.h` lines 264-281: GPIO1 at bits 0-1, GPIO2 at 2-3,
GPIO3 at 4-5). -/
def gpioOffset (gpio : Int) : Nat := if gpio = 1 then 0 else if gpio = 2 then 2 else 4

/-- C10: `writeGpio` with a pin outside {1,2,3} changes no bitfield and
still transmits the six control words exactly as read; with pin in {1,2,3}
exactly the selected 2-bit GPIO field is set to `val` and every other field
of the transmitted words (the other five words, and every SYSCONFIG1 field
bit-disjoint from the selected one) equals the value just read. -/
theorem writeGpio_frame (d : Regs) (gpio val : Int) :
    ((gpio ≠ 1 ∧ gpio ≠ 2 ∧ gpio ≠ 3) →
      (writeGpio d gpio val).2 = ctrlWords (shadowOfD d) ∧
      (writeGpio d gpio val).2.length = 6) ∧
    ((gpio = 1 ∨ gpio = 2 ∨ gpio = 3) →
      (writeGpio d gpio val).2 =
        [shadowOfD d 8, shadowOfD d 9,
         setField (shadowOfD d 10) (gpioOffset gpio) 2 (val % 4).toNat,
         shadowOfD d 11, shadowOfD d 12, shadowOfD d 13] ∧
      getField ((writeGpio d gpio val).2.getD 2 0) (gpioOffset gpio) 2 =
        (val % 4).toNat ∧
      (∀ lo' wd', lo' + wd' ≤ gpioOffset gpio ∨ gpioOffset gpio + 2 ≤ lo' →
        getField ((writeGpio d gpio val).2.getD 2 0) lo' wd' =
          getField (shadowOfD d 10) lo' wd')) := by
  have hv4 : (val % 4).toNat < 4 := by omega
  constructor
  · rintro ⟨h1, h2, h3⟩
    simp only [writeGpio]
    rw [if_neg h1, if_neg h2, if_neg h3]
    exact ⟨rfl, rfl⟩
  · intro hval
    have hword : (writeGpio d gpio val).2 =
        [shadowOfD d 8, shadowOfD d 9,
         setField (shadowOfD d 10) (gpioOffset gpio) 2 (val % 4).toNat,
         shadowOfD d 11, shadowOfD d 12, shadowOfD d 13] := by
      rcases hval with h | h | h <;> subst h <;> rfl
    refine ⟨hword, ?_, ?_⟩
    · rw [hword]
      show getField (setField (shadowOfD d 10) (gpioOffset gpio) 2 (val % 4).toNat)
        (gpioOffset gpio) 2 = (val % 4).toNat
      rw [getField_setField_self]
      exact Nat.mod_eq_of_lt hv4
    · intro lo' wd' hdisj
      rw [hword]
      show getField (setField (shadowOfD d 10) (gpioOffset gpio) 2 (val % 4).toNat)
        lo' wd' = getField (shadowOfD d 10) lo' wd'
      rcases hdisj with h | h
      · exact getField_setField_low _ _ _ _ _ _ h
      · exact getField_setField_high _ _ _ _ _ _ h

/-! ## Tuning (`Si4703.cpp` lines 350-395) -/

/-- `Si4703::getChannel`: refresh, then return
`_bandSpacing * READCHAN + _bandStart` from the 10-bit READCHAN field of the
read-channel register (shadow index 1, device register 0x0B). -/
def getChannel (c : BandCfg) (d : Regs) : Int :=
  c.spacing * (getField (shadowOfD d 1) 0 10 : Int) + c.bandStart

/-- Clamping at the top of `Si4703::setChannel`: first pull `freq` down to
`_bandEnd`, then up to `_bandStart`, in that order. -/
def clampFreq (c : BandCfg) (freq : Int) : Int :=
  let f1 := if freq > c.bandEnd then c.bandEnd else freq
  if f1 < c.bandStart then c.bandStart else f1

/-- Channel index written by `setChannel`: `(freq - _bandStart) / _bandSpacing`
with C truncating division, converted into the unsigned 10-bit CHAN field
(`emod 1024`, the wrap of a C int assigned to a `uint16_t:10` bitfield). -/
def chanIndex (c : BandCfg) (freq : Int) : Nat :=
  (((clampFreq c freq - c.bandStart).tdiv c.spacing) % 1024).toNat

/-- Shadow written by the first `putShadow` of `setChannel`: CHAN set to the
channel index and TUNE set to 1 in the channel word (shadow index 9). -/
def tuneShadow1 (c : BandCfg) (d : Regs) (freq : Int) : Nat → Nat :=
  updWord (shadowOfD d) 9
    (setField (setField (shadowOfD d 9) 0 10 (chanIndex c freq)) 15 1 1)

/-- Device state after the first `putShadow` of `setChannel`. -/
def tuneDev1 (c : BandCfg) (d : Regs) (freq : Int) : Regs :=
  echoWrite d (tuneShadow1 c d freq)

/-- Shadow written by the second `putShadow` of `setChannel`: the freshly
re-read shadow with TUNE cleared. -/
def tuneShadow2 (c : BandCfg) (d : Regs) (freq : Int) : Nat → Nat :=
  updWord (shadowOfD (tuneDev1 c d freq)) 9
    (setField (shadowOfD (tuneDev1 c d freq) 9) 15 1 0)

/-- Device state after the second `putShadow` of `setChannel`. -/
def tuneDev2 (c : BandCfg) (d : Regs) (freq : Int) : Regs :=
  echoWrite (tuneDev1 c d freq) (tuneShadow2 c d freq)

/-- `Si4703::setChannel` against the echo device: clamp, refresh, store the
channel index into the 10-bit CHAN field together with TUNE=1, write back;
after the STC busy-wait (reads only, which leave the echo device unchanged)
refresh again, clear TUNE, write back, busy-wait for STC to clear, and
return `getChannel()`. -/
def setChannel (c : BandCfg) (d : Regs) (freq : Int) : Regs × Int :=
  (tuneDev2 c d freq, getChannel c (tuneDev2 c d freq))

theorem chanIndex_lt (c : BandCfg) (freq : Int) : chanIndex c freq < 1024 := by
  unfold chanIndex
  omega

theorem setChannel_result (c : BandCfg) (d : Regs) (freq : Int) :
    (setChannel c d freq).2 = c.spacing * (chanIndex c freq : Int) + c.bandStart := by
  have h10 : (2:Nat) ^ 10 = 1024 := by norm_num
  have hkey : getField (tuneDev2 c d freq 11) 0 10 = chanIndex c freq := by
    unfold tuneDev2
    rw [echoWrite_rdchan, getField_setField_self]
    have hs2 : tuneShadow2 c d freq 9 =
        setField (shadowOfD (tuneDev1 c d freq) 9) 15 1 0 := updWord_self _ _ _
    rw [hs2, getField_setField_low _ _ _ _ _ _ (by omega)]
    have hd1 : shadowOfD (tuneDev1 c d freq) 9 = tuneShadow1 c d freq 9 := by
      show tuneDev1 c d freq 3 = _
      unfold tuneDev1
      rw [echoWrite_ctrl _ _ 3 (by omega) (by omega)]
    rw [hd1]
    have hs1 : tuneShadow1 c d freq 9 =
        setField (setField (shadowOfD d 9) 0 10 (chanIndex c freq)) 15 1 1 :=
      updWord_self _ _ _
    rw [hs1, getField_setField_low _ _ _ _ _ _ (by omega), getField_setField_self,
      h10, Nat.mod_eq_of_lt (chanIndex_lt c freq), Nat.mod_eq_of_lt (chanIndex_lt c freq)]
  show getChannel c (tuneDev2 c d freq) = _
  unfold getChannel
  have hrd : shadowOfD (tuneDev2 c d freq) 1 = tuneDev2 c d freq 11 := rfl
  rw [hrd, hkey]

/-- Band configurations reachable from `setRegion` with recognized band and
spacing selectors (the configurations `start()` can install). -/
def validCfg (c : BandCfg) : Prop :=
  ∃ c0 b sp, (b = 0 ∨ b = 1 ∨ b = 2) ∧ (sp = 0 ∨ sp = 1 ∨ sp = 2) ∧
    c = setRegion c0 b sp

theorem validCfg_facts (c : BandCfg) (hv : validCfg c) :
    0 < c.spacing ∧ c.bandStart ≤ c.bandEnd ∧
    (c.spacing = 5 ∨ c.spacing = 10 ∨ c.spacing = 20) ∧
    c.bandEnd - c.bandStart ≤ 3200 := by
  obtain ⟨c0, b, sp, hb, hsp, rfl⟩ := hv
  rcases hb with rfl | rfl | rfl <;> rcases hsp with rfl | rfl | rfl <;>
    norm_num [setRegion]

/-- C1: `setChannel(freq)` first clamps `freq` into `[bandStart, bandEnd]`,
and for every in-band `freq` the round trip through `getChannel()` returns
`bandStart + spacing * ((freq - bandStart) / spacing)` with truncating
integer division, under the echo-device model and any configuration
installed by `setRegion`. -/
theorem setChannel_roundtrip (c : BandCfg) (hv : validCfg c) (d : Regs) (freq : Int) :
    (c.bandStart ≤ clampFreq c freq ∧ clampFreq c freq ≤ c.bandEnd ∧
      setChannel c d freq = setChannel c d (clampFreq c freq)) ∧
    (c.bandStart ≤ freq → freq ≤ c.bandEnd →
      (setChannel c d freq).2 =
        c.bandStart + c.spacing * ((freq - c.bandStart) / c.spacing)) := by
  obtain ⟨hpos, hle, hsp, hspan⟩ := validCfg_facts c hv
  constructor
  · refine ⟨?_, ?_, ?_⟩
    · simp only [clampFreq]; split_ifs <;> omega
    · simp only [clampFreq]; split_ifs <;> omega
    · have hidem : clampFreq c (clampFreq c freq) = clampFreq c freq := by
        simp only [clampFreq]; split_ifs <;> omega
      unfold setChannel tuneDev2 tuneShadow2 tuneDev1 tuneShadow1 chanIndex
      rw [hidem]
  · intro hin1 hin2
    have hclamp : clampFreq c freq = freq := by
      simp only [clampFreq]; split_ifs <;> omega
    rw [setChannel_result]
    unfold chanIndex
    rw [hclamp, Int.tdiv_eq_ediv (by omega) (by omega)]
    rcases hsp with h | h | h <;> rw [h] <;> omega

/-! ## Seek (`Si4703.cpp` lines 409-448)

A device behaviour is a function `dev : Nat → Regs`: the `t`-th full-bank
read of a run is served from register-file snapshot `dev t`. The busy-wait
loops are modelled with explicit fuel; a run that never observes the awaited
STC value returns `none`. -/

/-- One bus transaction of a seek run: `rd t` is the `t`-th full-bank read,
`wr ws` a block write of the six control words `ws`. -/
inductive Ev where
  | rd (t : Nat)
  | wr (ws : List Nat)
deriving DecidableEq

/-- STC bit (bit 14 of status register 0x0A) in snapshot `t`. -/
def stcAt (dev : Nat → Regs) (t : Nat) : Nat := getField (dev t 10) 14 1

/-- SFBL bit (bit 13 of status register 0x0A) in snapshot `t`. -/
def sfblAt (dev : Nat → Regs) (t : Nat) : Nat := getField (dev t 10) 13 1

/-- STCIEN bit (bit 14 of SYSCONFIG1, register 0x04) in the snapshot the
initial refresh of `seek` observes; it selects busy-wait or the
unimplemented interrupt branch. -/
def stcienAt (dev : Nat → Regs) : Nat := getField (dev 0 4) 14 1

/-- Busy-wait helper: the first read index at or after `start` whose
snapshot satisfies `p`, polling at most `fuel` times. -/
def findPoll (p : Nat → Bool) (start fuel : Nat) : Option Nat :=
  match fuel with
  | 0 => none
  | f + 1 => if p start then some start else findPoll p (start + 1) f

/-- Reads `a, a+1, ..., b` as trace events (empty when `b + 1 ≤ a`). -/
def rdSeq (a b : Nat) : List Ev := (List.range (b + 1 - a)).map (fun k => Ev.rd (a + k))

/-- The `while(!getSTC())` poll of `seek`, guarded by `STCIEN == 0`; when
the guard fails the unimplemented interrupt branch performs no reads, which
is encoded as `some 0` (the next read index is 1 either way). -/
def pollSTCset (dev : Nat → Regs) (fuel : Nat) : Option Nat :=
  if stcienAt dev = 0 then findPoll (fun t => stcAt dev t == 1) 1 fuel else some 0

/-- The `while(getSTC())` poll of `seek` after the clearing write. -/
def pollSTCclear (dev : Nat → Regs) (start fuel : Nat) : Option Nat :=
  findPoll (fun t => stcAt dev t == 0) start fuel

/-- Shadow sent by the first write of `seek`: the initially refreshed shadow
with SEEKUP := dir and SEEK := 1 in POWERCFG (shadow index 8). -/
def seekShadow1 (dev : Nat → Regs) (dir : Nat) : Nat → Nat :=
  updWord (shadowOfD (dev 0)) 8
    (setField (setField (shadowOfD (dev 0) 8) 9 1 dir) 8 1 1)

/-- Shadow sent by the second write of `seek`: the shadow refreshed at read
`tS` with the SEEK bit cleared. -/
def seekShadow2 (dev : Nat → Regs) (tS : Nat) : Nat → Nat :=
  updWord (shadowOfD (dev tS)) 8 (setField (shadowOfD (dev tS) 8) 8 1 0)

/-- `Si4703::seek`: refresh (read 0), set direction and SEEK, write;
busy-wait for STC (reads 1..t1); refresh again (read t1+1) and sample SFBL
from it; clear SEEKIN the fresh shadow, write; busy-wait for STC to clear
(reads t1+2..t2); return 0 when SFBL was set, else `getChannel()` from one
more read (t2+1). The value and the bus trace are returned together. -/
def seekRun (dev : Nat → Regs) (c : BandCfg) (dir f1 f2 : Nat) :
    Option (List Ev × Int) :=
  match pollSTCset dev f1 with
  | none => none
  | some t1 =>
    match pollSTCclear dev (t1 + 2) f2 with
    | none => none
    | some t2 =>
      let tr := [Ev.rd 0, Ev.wr (ctrlWords (seekShadow1 dev dir))] ++ rdSeq 1 t1 ++
        [Ev.rd (t1 + 1), Ev.wr (ctrlWords (seekShadow2 dev (t1 + 1)))] ++
        rdSeq (t1 + 2) t2
      if sfblAt dev (t1 + 1) = 1 then some (tr, 0)
      else some (tr ++ [Ev.rd (t2 + 1)],
        c.spacing * (getField (dev (t2 + 1) 11) 0 10 : Int) + c.bandStart)

/-- `Si4703::seekUp`. -/
def seekUp (dev : Nat → Regs) (c : BandCfg) (f1 f2 : Nat) : Option (List Ev × Int) :=
  seekRun dev c 1 f1 f2

/-- `Si4703::seekDown`. -/
def seekDown (dev : Nat → Regs) (c : BandCfg) (f1 f2 : Nat) : Option (List Ev × Int) :=
  seekRun dev c 0 f1 f2

/-- C5: in every completing run, when the device reports SFBL set at the
post-seek refresh, `seekUp` and `seekDown` return 0 regardless of the
read-channel register; when SFBL is clear they return the frequency
recomputed by the same readback as `setChannel`
(`spacing * READCHAN + bandStart`). -/
theorem seek_sfbl (dev : Nat → Regs) (c : BandCfg) (f1 f2 t1 t2 : Nat)
    (h1 : pollSTCset dev f1 = some t1)
    (h2 : pollSTCclear dev (t1 + 2) f2 = some t2) :
    (sfblAt dev (t1 + 1) = 1 →
      (∃ tr, seekUp dev c f1 f2 = some (tr, 0)) ∧
      (∃ tr, seekDown dev c f1 f2 = some (tr, 0))) ∧
    (sfblAt dev (t1 + 1) ≠ 1 →
      (∃ tr, seekUp dev c f1 f2 = some (tr,
        c.spacing * (getField (dev (t2 + 1) 11) 0 10 : Int) + c.bandStart)) ∧
      (∃ tr, seekDown dev c f1 f2 = some (tr,
        c.spacing * (getField (dev (t2 + 1) 11) 0 10 : Int) + c.bandStart))) := by
  unfold seekUp seekDown seekRun
  simp only [h1, h2]
  constructor
  · intro hs
    simp only [if_pos hs]
    exact ⟨⟨_, rfl⟩, ⟨_, rfl⟩⟩
  · intro hs
    simp only [if_neg hs]
    exact ⟨⟨_, rfl⟩, ⟨_, rfl⟩⟩

/-- C6: in every completing seek, the write clearing the SEEK bit is emitted
strictly after the full-bank refresh whose SFBL bit decides the return
value: the trace decomposes with the sampling read immediately before the
clearing write, every write before that point carries SEEK = 1, and the
result is the SFBL-based case split on snapshot `t1 + 1`. -/
theorem seek_order (dev : Nat → Regs) (c : BandCfg) (dir f1 f2 t1 t2 : Nat)
    (h1 : pollSTCset dev f1 = some t1)
    (h2 : pollSTCclear dev (t1 + 2) f2 = some t2) :
    ∃ pre post ret,
      seekRun dev c dir f1 f2 =
        some (pre ++ Ev.rd (t1 + 1) ::
          Ev.wr (ctrlWords (seekShadow2 dev (t1 + 1))) :: post, ret) ∧
      getField ((ctrlWords (seekShadow2 dev (t1 + 1))).getD 0 0) 8 1 = 0 ∧
      (∀ ws, Ev.wr ws ∈ pre → getField (ws.getD 0 0) 8 1 = 1) ∧
      (sfblAt dev (t1 + 1) = 1 → ret = 0) ∧
      (sfblAt dev (t1 + 1) ≠ 1 →
        ret = c.spacing * (getField (dev (t2 + 1) 11) 0 10 : Int) + c.bandStart) := by
  refine ⟨[Ev.rd 0, Ev.wr (ctrlWords (seekShadow1 dev dir))] ++ rdSeq 1 t1,
    rdSeq (t1 + 2) t2 ++
      (if sfblAt dev (t1 + 1) = 1 then [] else [Ev.rd (t2 + 1)]),
    if sfblAt dev (t1 + 1) = 1 then 0
      else c.spacing * (getField (dev (t2 + 1) 11) 0 10 : Int) + c.bandStart,
    ?_, ?_, ?_, ?_, ?_⟩
  · unfold seekRun
    simp only [h1, h2]
    by_cases hs : sfblAt dev (t1 + 1) = 1
    · simp only [if_pos hs]
      simp [List.append_assoc]
    · simp only [if_neg hs]
      simp [List.append_assoc]
  · have hw : (ctrlWords (seekShadow2 dev (t1 + 1))).getD 0 0 =
        setField (shadowOfD (dev (t1 + 1)) 8) 8 1 0 := by
      show seekShadow2 dev (t1 + 1) 8 = _
      exact updWord_self _ _ _
    rw [hw, getField_setField_self]
    decide
  · intro ws hmem
    simp only [List.cons_append, List.nil_append, List.mem_cons] at hmem
    rcases hmem with h | h | h
    · exact absurd h (by simp)
    · have hws : ws = ctrlWords (seekShadow1 dev dir) := by
        injection h
      subst hws
      have hw : (ctrlWords (seekShadow1 dev dir)).getD 0 0 =
          setField (setField (shadowOfD (dev 0) 8) 9 1 dir) 8 1 1 := by
        show seekShadow1 dev dir 8 = _
        exact updWord_self _ _ _
      rw [hw, getField_setField_self]
      decide
    · exfalso
      unfold rdSeq at h
      simp only [List.mem_map, List.mem_range] at h
      obtain ⟨k, _, hk⟩ := h
      exact Ev.noConfusion hk
  · intro hs
    rw [if_pos hs]
  · intro hs
    rw [if_neg hs]

/-! ## Concrete witnesses -/

/-- Example device behaviour for concrete seek runs: STC rises at read 1,
stays up at read 2 where SFBL is also set, is down from read 3 on; the
read-channel register holds 100 at read 4. -/
def devSF : Nat → Regs := fun t r =>
  if r = 10 then (if t = 1 then 16384 else if t = 2 then 24576 else 0)
  else if r = 11 then (if t = 4 then 100 else 0)
  else 0

/-- Witness for the frequency round trip at a concrete input:
`setChannel(9875)` with the US/EU band at 100 kHz spacing reads back 9870. -/
theorem setChannel_roundtrip_witness :
    (setChannel (setRegion ⟨0, 0, 0⟩ 0 1) (fun _ => 0) 9875).2 = 9870 := by
  have h := (setChannel_roundtrip (setRegion ⟨0, 0, 0⟩ 0 1)
    ⟨⟨0, 0, 0⟩, 0, 1, Or.inl rfl, Or.inr (Or.inl rfl), rfl⟩ (fun _ => 0) 9875).2
    (by decide) (by decide)
  exact h.trans (by decide)

/-- Witness for the shadow layout at a concrete register file: shadow index
9 receives register 0x03 (value 1536 when register `r` holds `512 * r`). -/
theorem shadow_layout_invariant_witness :
    getShadow (deviceReadBytes (fun r => 512 * r)) 9 = 1536 := by
  exact ((shadow_layout_invariant (fun r => 512 * r)).2.2.2.2.2.1 1
    (by omega)).trans (by decide)

/-- Witness for the read order at a concrete register file: 32 bytes are
consumed and shadow index 3 receives register 0x0D. -/
theorem getShadow_readOrder_witness :
    (deviceReadBytes (fun r => 4096 + r)).length = 32 ∧
    getShadow (deviceReadBytes (fun r => 4096 + r)) 3 = 4109 := by
  refine ⟨(getShadow_readOrder (fun r => 4096 + r)).1, ?_⟩
  exact ((getShadow_readOrder (fun r => 4096 + r)).2 3 (by omega)).trans (by decide)

/-- Witness for volume clamping at concrete inputs. -/
theorem setVolume_clamps_witness :
    (setVolume (fun _ => 0) 99).2 = 15 ∧ (decVolume (fun _ => 0)).2 = 0 := by
  refine ⟨(setVolume_clamps (fun _ => 0) 99).1.trans (by decide), ?_⟩
  exact (setVolume_clamps (fun _ => 0) 99).2.2.2.2.2 (by decide)

/-- Witness for `setRegion` with the invalid selectors 9/9: all three band
fields keep their prior values. -/
theorem setRegion_ignores_invalid_witness :
    getBandStart (setRegion ⟨1, 2, 3⟩ 9 9) = 1 ∧
    getBandEnd (setRegion ⟨1, 2, 3⟩ 9 9) = 2 ∧
    getBandSpace (setRegion ⟨1, 2, 3⟩ 9 9) = 3 := by
  have h := setRegion_ignores_invalid ⟨1, 2, 3⟩ 9 9
  exact ⟨(h.1 (by decide) (by decide) (by decide)).1,
    (h.1 (by decide) (by decide) (by decide)).2,
    h.2 (by decide) (by decide) (by decide)⟩

/-- Witness for the GPIO frame effect at concrete inputs: pin 7 transmits
the control words unchanged; pin 2 sets its field to 3 and keeps the GPIO1
field of the same word. -/
theorem writeGpio_frame_witness :
    (writeGpio (fun _ => 21845) 7 2).2 = ctrlWords (shadowOfD (fun _ => 21845)) ∧
    getField ((writeGpio (fun _ => 21845) 2 3).2.getD 2 0) 2 2 = 3 ∧
    getField ((writeGpio (fun _ => 21845) 2 3).2.getD 2 0) 0 2 =
      getField (shadowOfD (fun _ => 21845) 10) 0 2 := by
  refine ⟨((writeGpio_frame (fun _ => 21845) 7 2).1 (by decide)).1, ?_, ?_⟩
  · have h := ((writeGpio_frame (fun _ => 21845) 2 3).2 (Or.inr (Or.inl rfl))).2.1
    exact h.trans (by decide)
  · exact ((writeGpio_frame (fun _ => 21845) 2 3).2 (Or.inr (Or.inl rfl))).2.2 0 2
      (Or.inl (by decide))

/-- Witness for a concrete failed seek: with `devSF` the SFBL bit is set at
the sampling read and `seekUp` returns 0. -/
theorem seek_sfbl_witness :
    pollSTCset devSF 5 = some 1 ∧ pollSTCclear devSF 3 5 = some 3 ∧
    (seekUp devSF ⟨8750, 10800, 10⟩ 5 5).map Prod.snd = some 0 := by
  have h := seek_sfbl devSF ⟨8750, 10800, 10⟩ 5 5 1 3 (by decide) (by decide)
  obtain ⟨tr, htr⟩ := (h.1 (by decide)).1
  exact ⟨by decide, by decide, by rw [htr]; rfl⟩

/-- Witness for the seek ordering on the same concrete run: the clearing
write carries SEEK = 0 and the run returns 0. -/
theorem seek_order_witness :
    getField ((ctrlWords (seekShadow2 devSF 2)).getD 0 0) 8 1 = 0 ∧
    (seekRun devSF ⟨8750, 10800, 10⟩ 0 5 5).map Prod.snd = some 0 := by
  obtain ⟨pre, post, ret, heq, hbit, hpre, hs1, hs0⟩ :=
    seek_order devSF ⟨8750, 10800, 10⟩ 0 5 5 1 3 (by decide) (by decide)
  refine ⟨hbit, ?_⟩
  rw [heq, hs1 (by decide)]
  rfl

end Si4703
